import Mathlib

/-!
Shallow embedding of the `redsync` distributed-lock package (Go, two files:
`mutex.go` and `redis.go`) and proofs about its claims.

Modelling conventions:
* Go `error` values flowing out of a redis call are modelled by `RedisErr E`,
  where `E` is an abstract transport-error type and `RedisErr.redisNil` is the
  distinguished `redis.Nil` sentinel error of the go-redis client.
* A `nil`/non-`nil` Go error is `Option`; the `go-multierror` aggregate built
  by `multierror.Append` is modelled as the list of appended errors, so the
  aggregated error of a dispatch is `Option (List (RedisErr E))` (`none` = Go
  `nil`).
* `time.Time` and `time.Duration` are `Int` nanosecond counts, as in Go's
  representation.  The drift term `time.Duration(int64(float64(m.expiry) *
  m.factor))` is carried as a precomputed `drift : Int` field (the float
  rounding itself is not modelled; `drift` stands for the value the conversion
  produced).
* Each per-instance network interaction is abstracted to its outcome: a
  `SetNX` call yields `Except (RedisErr E) Bool`, a script `Run` yields
  `Except (RedisErr E) Int` (the script's integer reply or an error), and a
  `Get` yields a `GetResult`.
* The concurrent fan-out of `actOnPoolsAsync` collects channel results in a
  nondeterministic order; the model folds over the per-pool results in pool
  order, which fixes one admissible interleaving.  Success counts are
  order-independent; the aggregated error list is taken in pool order.
-/

namespace Redsync

/-- Errors produced by a redis call: either the distinguished `redis.Nil`
sentinel of the go-redis client, or a transport-level error drawn from an
abstract type `E`. -/
inductive RedisErr (E : Type) : Type
  | redisNil : RedisErr E
  | transport (e : E) : RedisErr E
  deriving DecidableEq, Repr

/-- The `Mutex` struct of `mutex.go` (lines 16-32).  `pools` is not stored:
every operation below takes the per-pool outcomes of its dispatch as an
argument, so the pool list is implicit in the length of those outcome lists.
`drift` is the precomputed `int64(float64(expiry) * factor)` duration. -/
structure Mutex (E : Type) : Type where
  name : String
  expiry : Int
  tries : Int
  delayFunc : Int → Int
  drift : Int
  quorum : Int
  genValueFunc : Except (RedisErr E) String
  value : String
  untilTime : Int

/-- `multierror.Append err e` for a possibly-`nil` accumulator: a `nil`
accumulator starts a fresh one-element aggregate. -/
def multiAppendErr {α : Type} (err : Option (List α)) (e : α) : List α :=
  err.getD [] ++ [e]

/-- One step of the result-collection loop of `actOnPoolsAsync`
(`mutex.go` lines 179-186): a `true` status bumps the counter, a `false`
status with a non-nil error appends it to the aggregate, and a clean `false`
changes nothing. -/
def mergeResult {α : Type} (acc : Int × Option (List α)) (r : Bool × Option α) :
    Int × Option (List α) :=
  if r.1 then (acc.1 + 1, acc.2)
  else
    match r.2 with
    | some e => (acc.1, some (multiAppendErr acc.2 e))
    | none => acc

/-- `Mutex.actOnPoolsAsync` (`mutex.go` lines 163-188), applied to the list of
per-pool `(status, err)` results of the dispatched action: returns the success
count and the aggregated error. -/
def actOnPoolsAsync {α : Type} (rs : List (Bool × Option α)) :
    Int × Option (List α) :=
  rs.foldl mergeResult (0, none)

/-- `Mutex.acquire` (`mutex.go` lines 118-129), applied to the outcome of
`conn.SetNX(name, value, expiry).Result()`: an `err == redis.Nil` reply is
converted to a clean `(false, nil)`, any other error is propagated, and an
error-free reply is returned as the status. -/
def acquire {E : Type} [DecidableEq E] (setnx : Except (RedisErr E) Bool) :
    Bool × Option (RedisErr E) :=
  match setnx with
  | .error e => if e = RedisErr.redisNil then (false, none) else (false, some e)
  | .ok reply => (reply, none)

/-- Go's `status != 0` at `mutex.go` lines 144 and 160.  `status` is the
`interface{}` result of `Script.Run(...).Result()`, which boxes every RESP
integer reply (a Lua script's `return 0` included) as an `int64`; the untyped
constant `0` defaults to type `int`, and an interface value holding an
`int64` is never equal to one holding an `int`.  The comparison is therefore
true for every successful script evaluation, whatever the integer reply. -/
def statusNeZero (_status : Int) : Bool :=
  true

/-- `Mutex.release` (`mutex.go` lines 139-145), applied to the outcome of
`deleteScript.Run(conn, [name], value).Result()`: returns
`(err == nil && status != 0, err)`, where `status != 0` is the
always-true interface comparison `statusNeZero` — so in effect
`(err == nil, err)`. -/
def release {E : Type} (script : Except (RedisErr E) Int) :
    Bool × Option (RedisErr E) :=
  match script with
  | .ok status => (statusNeZero status, none)
  | .error e => (false, some e)

/-- `Mutex.touch` (`mutex.go` lines 155-161), applied to the outcome of
`touchScript.Run(conn, [name], value, expiry).Result()`: returns
`(err == nil && status != 0, err)`, with the same always-true interface
comparison `statusNeZero` as `release` — so in effect `(err == nil, err)`.
The `value` and `expiry` arguments only feed the script and are folded into
its outcome. -/
def touch {E : Type} (script : Except (RedisErr E) Int) :
    Bool × Option (RedisErr E) :=
  match script with
  | .ok status => (statusNeZero status, none)
  | .error e => (false, some e)

/-- Server-side evaluation of `touchScript` (`mutex.go` lines 147-153) on an
instance whose lock key currently stores `stored` (`none` = key absent):
`GET` of an absent key yields Lua `false`, which never equals the string
`ARGV[1]`, so the script returns `0`; on a match, `PEXPIRE` of the existing
key returns `1`. -/
def touchScriptEval (stored : Option String) (argv1 : String) : Int :=
  match stored with
  | some v => if v = argv1 then 1 else 0
  | none => 0

/-- Outcome of `conn.Get(name).Result()`:  the key's value, a read miss, or a
transport failure. -/
inductive GetResult (E : Type) : Type
  | found (s : String) : GetResult E
  | missing : GetResult E
  | fail (e : E) : GetResult E
  deriving DecidableEq, Repr

/-- The `(string, error)` pair `conn.Get(name).Result()` evaluates to in the
go-redis v7 client: a read miss ("key does not exist") is reported as the
`redis.Nil` error with an empty string, exactly the contract `acquire` in this
same file tests for with `err == redis.Nil`. -/
def getRun {E : Type} (g : GetResult E) : String × Option (RedisErr E) :=
  match g with
  | .found s => (s, none)
  | .missing => ("", some RedisErr.redisNil)
  | .fail e => ("", some (RedisErr.transport e))

/-- `Mutex.valid` (`mutex.go` lines 99-107): read the key; any non-nil error
(including `redis.Nil` on a miss, which this function, unlike `acquire`, does
not filter) is returned as `(false, err)`; otherwise compare the reply with
`m.value`. -/
def valid {E : Type} (m : Mutex E) (g : GetResult E) :
    Bool × Option (RedisErr E) :=
  let r := getRun g
  match r.2 with
  | some e => (false, some e)
  | none => (decide (m.value = r.1), none)

/-- `Mutex.Unlock` (`mutex.go` lines 71-79), applied to the per-pool outcomes
of the release script: dispatch `release` over all pools; below quorum return
`(false, err)`, otherwise `(true, nil)`.  The second component is the
post-state of the receiver: the method body never assigns to any field. -/
def Unlock {E : Type} (m : Mutex E) (scripts : List (Except (RedisErr E) Int)) :
    (Bool × Option (List (RedisErr E))) × Mutex E :=
  let d := actOnPoolsAsync (scripts.map release)
  ((if d.1 < m.quorum then (false, d.2) else (true, none)), m)

/-- `Mutex.Extend` (`mutex.go` lines 82-90), applied to the per-pool outcomes
of the touch script: dispatch `touch` over all pools; below quorum return
`(false, err)`, otherwise `(true, nil)`.  The second component is the
post-state of the receiver: the method body never assigns to any field. -/
def Extend {E : Type} (m : Mutex E) (scripts : List (Except (RedisErr E) Int)) :
    (Bool × Option (List (RedisErr E))) × Mutex E :=
  let d := actOnPoolsAsync (scripts.map touch)
  ((if d.1 < m.quorum then (false, d.2) else (true, none)), m)

/-- `Mutex.Valid` (`mutex.go` lines 92-97), applied to the per-pool `Get`
outcomes: dispatch `valid` over all pools and return `(n >= quorum, err)`.
The second component is the post-state of the receiver: the method body never
assigns to any field. -/
def Valid {E : Type} (m : Mutex E) (gets : List (GetResult E)) :
    (Bool × Option (List (RedisErr E))) × Mutex E :=
  let d := actOnPoolsAsync (gets.map (valid m))
  ((decide (m.quorum ≤ d.1), d.2), m)

/-- The environment of one iteration of the `Lock` loop: the `time.Now()`
sample taken before the acquire dispatch, the per-pool `SetNX` outcomes of
that dispatch, and the `time.Now()` sample taken after it. -/
structure Attempt (E : Type) : Type where
  start : Int
  setnx : List (Except (RedisErr E) Bool)
  finish : Int

/-- Observable effects of a `Lock` run: a `time.Sleep` of the given duration,
an acquire dispatch to every pool, or a rollback release dispatch to every
pool. -/
inductive Ev : Type
  | sleep (d : Int) : Ev
  | acquireDispatch : Ev
  | releaseDispatch : Ev
  deriving DecidableEq, Repr

/-- The value `Lock` returns: `nil` on success, `ErrFailed` on exhaustion, the
generator's error, or the aggregated dispatch error of a totally failed
attempt. -/
inductive LockResult (E : Type) : Type
  | ok : LockResult E
  | errFailed : LockResult E
  | genErr (e : RedisErr E) : LockResult E
  | aggErr (es : List (RedisErr E)) : LockResult E
  deriving DecidableEq, Repr

/-- The result `(n, err)` of the acquire dispatch of one attempt. -/
def acquireDisp {E : Type} [DecidableEq E] (a : Attempt E) :
    Int × Option (List (RedisErr E)) :=
  actOnPoolsAsync (a.setnx.map acquire)

/-- `newValidityTime` of one attempt (`mutex.go` line 56):
`expiry - now.Sub(start) - drift`. -/
def attemptValidity {E : Type} (m : Mutex E) (a : Attempt E) : Int :=
  m.expiry - (a.finish - a.start) - m.drift

/-- The sleep performed at the top of iteration `i` of the `Lock` loop
(`mutex.go` lines 42-44): nothing before the first attempt, otherwise a sleep
of `delayFunc(i)`. -/
def sleepEvs {E : Type} (m : Mutex E) (i : Nat) : List Ev :=
  if i = 0 then [] else [Ev.sleep (m.delayFunc (Int.ofNat i))]

/-- The `for i := 0; i < m.tries; i++` loop of `Mutex.Lock` (`mutex.go` lines
41-65).  `fuel` is the number of remaining iterations and `i` the Go loop
index; `env i` supplies attempt `i`'s timing and per-pool outcomes.  Returns
the loop's result, the post-state of the receiver, and the trace of effects.
Rollback release dispatches have their results discarded by the source, so
only the `releaseDispatch` event is recorded. -/
def lockLoop {E : Type} [DecidableEq E] (m : Mutex E) (value : String)
    (env : Nat → Attempt E) : Nat → Nat → LockResult E × Mutex E × List Ev
  | 0, _ => (.errFailed, m, [])
  | fuel + 1, i =>
    let pre : List Ev := sleepEvs m i
    let d := acquireDisp (env i)
    if d.1 = 0 ∧ d.2 ≠ none then
      (.aggErr (d.2.getD []), m, pre ++ [Ev.acquireDispatch])
    else
      if m.quorum ≤ d.1 ∧ 0 < attemptValidity m (env i) then
        (.ok,
         { m with value := value,
                  untilTime := (env i).finish + attemptValidity m (env i) },
         pre ++ [Ev.acquireDispatch])
      else
        let rest := lockLoop m value env fuel (i + 1)
        (rest.1, rest.2.1,
         pre ++ [Ev.acquireDispatch, Ev.releaseDispatch] ++ rest.2.2)

/-- `Mutex.Lock` (`mutex.go` lines 35-68): generate the value (fail fast on a
generator error, before any instance is contacted), then run the attempt
loop; a non-positive `tries` makes the loop body run zero times. -/
def lockGo {E : Type} [DecidableEq E] (m : Mutex E) (env : Nat → Attempt E) :
    LockResult E × Mutex E × List Ev :=
  match m.genValueFunc with
  | .error e => (.genErr e, m, [])
  | .ok value => lockLoop m value env m.tries.toNat 0

/-- Number of per-pool invocations that returned `true`, following the words
of the dispatcher's contract (for comparison against `actOnPoolsAsync`). -/
def succCount {α : Type} (rs : List (Bool × Option α)) : Int :=
  Int.ofNat (rs.filter (fun r => r.1)).length

/-- The non-nil errors of per-pool invocations that returned `false`, in pool
order, following the words of the dispatcher's contract (for comparison
against `actOnPoolsAsync`). -/
def errList {α : Type} (rs : List (Bool × Option α)) : List α :=
  rs.filterMap (fun r => if r.1 then none else r.2)

/-- A concrete mutex over `E = Nat` used by witnesses and counterexamples:
8 s expiry, 500 ms retry delay, 1 % drift. -/
def sampleMutex (quorum tries : Int) : Mutex Nat :=
  { name := "redsync"
    expiry := 8000000000
    tries := tries
    delayFunc := fun _ => 500000000
    drift := 80000000
    quorum := quorum
    genValueFunc := Except.ok "tok"
    value := "tok"
    untilTime := 0 }

theorem foldl_mergeResult_fst {α : Type} (rs : List (Bool × Option α)) :
    ∀ acc : Int × Option (List α),
      (rs.foldl mergeResult acc).1 = acc.1 + succCount rs := by
  induction rs with
  | nil => intro acc; simp [succCount]
  | cons r rs ih =>
    intro acc
    obtain ⟨b, oe⟩ := r
    cases b with
    | true =>
      simp [List.foldl_cons, ih, mergeResult, succCount, List.filter_cons]
      omega
    | false =>
      cases oe with
      | none =>
        simp [List.foldl_cons, ih, mergeResult, succCount, List.filter_cons]
      | some e =>
        simp [List.foldl_cons, ih, mergeResult, succCount, List.filter_cons]

theorem foldl_mergeResult_snd {α : Type} [DecidableEq α]
    (rs : List (Bool × Option α)) :
    ∀ acc : Int × Option (List α),
      (rs.foldl mergeResult acc).2 =
        if errList rs = [] then acc.2
        else some (acc.2.getD [] ++ errList rs) := by
  induction rs with
  | nil => intro acc; simp [errList]
  | cons r rs ih =>
    intro acc
    obtain ⟨b, oe⟩ := r
    cases b with
    | true =>
      simp [List.foldl_cons, ih, mergeResult, errList, List.filterMap_cons]
    | false =>
      cases oe with
      | none =>
        simp [List.foldl_cons, ih, mergeResult, errList, List.filterMap_cons]
      | some e =>
        simp only [List.foldl_cons, ih, mergeResult, errList,
          List.filterMap_cons]
        by_cases h : rs.filterMap (fun r => if r.1 then none else r.2) = [] <;>
          simp [h, multiAppendErr, List.append_assoc]

/-- C4: `actOnPoolsAsync` returns a success count equal to the number of
per-pool invocations that returned `true`, and an aggregated error combining
exactly the non-nil errors of invocations that returned `false` (nil when
there are none); on zero pools it returns `(0, none)`. -/
theorem actOnPoolsAsync_spec {α : Type} [DecidableEq α]
    (rs : List (Bool × Option α)) :
    (actOnPoolsAsync rs).1 = succCount rs
    ∧ (actOnPoolsAsync rs).2 =
        (if errList rs = [] then none else some (errList rs))
    ∧ actOnPoolsAsync ([] : List (Bool × Option α)) = (0, none) := by
  refine ⟨?_, ?_, rfl⟩
  · rw [actOnPoolsAsync, foldl_mergeResult_fst]; simp
  · rw [actOnPoolsAsync, foldl_mergeResult_snd]
    by_cases h : errList rs = [] <;> simp [h]

/-- C1 (code bug): the claim states the per-instance `release` and `touch`
booleans are true iff the script evaluation succeeded with a non-zero reply,
which is what the scripts' `return 0` convention intends — but the code's
`status != 0` compares an interface-boxed `int64` against an `int` zero and
is always true, so a successful evaluation whose reply is `0` (caller no
longer owns the key) still yields `(true, none)` from both functions. -/
theorem release_touch_zero_reply_bug :
    release (Except.ok 0 : Except (RedisErr Nat) Int) = (true, none)
    ∧ touch (Except.ok 0 : Except (RedisErr Nat) Int) = (true, none)
    ∧ (∀ r : Except (RedisErr Nat) Int,
        (release r).1 = true ↔ ∃ s, r = Except.ok s) := by
  refine ⟨rfl, rfl, ?_⟩
  intro r
  cases r with
  | ok s => simp [release, statusNeZero]
  | error e => simp [release]

theorem foldl_mergeResult_clean {α : Type} (rs : List (Bool × Option α))
    (h : ∀ r ∈ rs, r = (false, none)) :
    ∀ acc : Int × Option (List α), rs.foldl mergeResult acc = acc := by
  induction rs with
  | nil => intro acc; rfl
  | cons r rs ih =>
    intro acc
    have hr := h r (by simp)
    subst hr
    simp only [List.foldl_cons, mergeResult]
    exact ih (fun r hr => h r (by simp [hr])) acc

/-- C5 (code bug): the claim (and the spec's definition of an idle Extend)
requires `(false, none)` — the touch script compares the unset value, matches
nothing, and every instance replies `0`.  The script replies are indeed all
`0`, but because `touch` treats every successful script evaluation as `true`
(the always-true interface comparison `statusNeZero`), each reachable
instance is counted as a success: an idle Extend against one reachable
instance holding another client's token reaches quorum and returns
`(true, none)` instead. -/
theorem extend_idle_bug :
    touchScriptEval (some "other") ({ sampleMutex 1 1 with value := "" }).value
      = 0
    ∧ (Extend ({ sampleMutex 1 1 with value := "" })
        (([some "other", none] : List (Option String)).map
          (fun st => Except.ok
            (touchScriptEval st
              ({ sampleMutex 1 1 with value := "" }).value)))).1
      = (true, none) := ⟨rfl, rfl⟩

/-- C6 (amended): `valid` returns `(m.value == reply, none)` on a successful
read, `(false, redis.Nil)` on a read miss (the miss error is propagated, not
filtered), and `(false, err)` on a transport failure. -/
theorem valid_characterization {E : Type} (m : Mutex E) :
    (∀ s, valid m (GetResult.found s) = (decide (m.value = s), none))
    ∧ valid m GetResult.missing = (false, some RedisErr.redisNil)
    ∧ (∀ e, valid m (GetResult.fail e)
        = (false, some (RedisErr.transport e))) :=
  ⟨fun _ => rfl, rfl, fun _ => rfl⟩

/-- C6 counterexample: on a read miss `valid` returns the `redis.Nil` error,
not `(false, none)` as the claim states. -/
theorem valid_missing_returns_error :
    valid (sampleMutex 2 3) (GetResult.missing : GetResult Nat)
      = (false, some RedisErr.redisNil)
    ∧ ((false, some RedisErr.redisNil) : Bool × Option (RedisErr Nat))
        ≠ (false, none) :=
  ⟨rfl, by decide⟩

/-- C7 (amended): Unlock and Extend return the verdict `count ≥ quorum`; on a
`false` verdict the aggregated error is returned alongside, but on a `true`
verdict the returned error is always nil — the aggregated per-instance error
is discarded. -/
theorem unlock_extend_verdict_spec {E : Type} [DecidableEq E] (m : Mutex E)
    (scripts : List (Except (RedisErr E) Int)) :
    ((Unlock m scripts).1.1 = true
        ↔ m.quorum ≤ (actOnPoolsAsync (scripts.map release)).1)
    ∧ ((Unlock m scripts).1.1 = true → (Unlock m scripts).1.2 = none)
    ∧ ((Unlock m scripts).1.1 = false
        → (Unlock m scripts).1.2 = (actOnPoolsAsync (scripts.map release)).2)
    ∧ ((Extend m scripts).1.1 = true
        ↔ m.quorum ≤ (actOnPoolsAsync (scripts.map touch)).1)
    ∧ ((Extend m scripts).1.1 = true → (Extend m scripts).1.2 = none)
    ∧ ((Extend m scripts).1.1 = false
        → (Extend m scripts).1.2 = (actOnPoolsAsync (scripts.map touch)).2) := by
  refine ⟨?_, ?_, ?_, ?_, ?_, ?_⟩ <;>
    simp only [Unlock, Extend] <;>
    [skip; skip; skip; skip; skip; skip] <;>
    first
      | (by_cases h : (actOnPoolsAsync (scripts.map release)).1 < m.quorum <;>
          simp [h] <;> omega)
      | (by_cases h : (actOnPoolsAsync (scripts.map touch)).1 < m.quorum <;>
          simp [h] <;> omega)

theorem unlock_extend_verdict_spec_witness :
    (Unlock (sampleMutex 1 1)
      ([Except.ok 1] : List (Except (RedisErr Nat) Int))).1.2 = none :=
  (unlock_extend_verdict_spec (sampleMutex 1 1) [Except.ok 1]).2.1 (by decide)

/-- C7 counterexample: a quorum-reaching Unlock with one errored instance
returns `(true, none)` even though the dispatch aggregated a non-nil error —
the aggregated error is not returned alongside the `true` verdict. -/
theorem unlock_discards_error_on_success :
    (Unlock (sampleMutex 1 1)
      ([Except.ok 1, Except.error (RedisErr.transport 3)] :
        List (Except (RedisErr Nat) Int))).1 = (true, none)
    ∧ (actOnPoolsAsync
        (([Except.ok 1, Except.error (RedisErr.transport 3)] :
          List (Except (RedisErr Nat) Int)).map release)).2
        = some [RedisErr.transport 3] :=
  ⟨rfl, rfl⟩

theorem lockLoop_zero {E : Type} [DecidableEq E] (m : Mutex E) (value : String)
    (env : Nat → Attempt E) (i : Nat) :
    lockLoop m value env 0 i = (.errFailed, m, []) := rfl

theorem lockLoop_succ_aggErr {E : Type} [DecidableEq E] (m : Mutex E)
    (value : String) (env : Nat → Attempt E) (fuel i : Nat)
    (h : (acquireDisp (env i)).1 = 0 ∧ (acquireDisp (env i)).2 ≠ none) :
    lockLoop m value env (fuel + 1) i =
      (.aggErr ((acquireDisp (env i)).2.getD []), m,
       sleepEvs m i ++ [Ev.acquireDispatch]) := by
  simp only [lockLoop]
  rw [if_pos h]

theorem lockLoop_succ_ok {E : Type} [DecidableEq E] (m : Mutex E)
    (value : String) (env : Nat → Attempt E) (fuel i : Nat)
    (hne : ¬((acquireDisp (env i)).1 = 0 ∧ (acquireDisp (env i)).2 ≠ none))
    (hq : m.quorum ≤ (acquireDisp (env i)).1)
    (hv : 0 < attemptValidity m (env i)) :
    lockLoop m value env (fuel + 1) i =
      (.ok,
       { m with value := value,
                untilTime := (env i).finish + attemptValidity m (env i) },
       sleepEvs m i ++ [Ev.acquireDispatch]) := by
  simp only [lockLoop]
  rw [if_neg hne, if_pos ⟨hq, hv⟩]

theorem lockLoop_succ_next {E : Type} [DecidableEq E] (m : Mutex E)
    (value : String) (env : Nat → Attempt E) (fuel i : Nat)
    (hne : ¬((acquireDisp (env i)).1 = 0 ∧ (acquireDisp (env i)).2 ≠ none))
    (hfail : ¬(m.quorum ≤ (acquireDisp (env i)).1
              ∧ 0 < attemptValidity m (env i))) :
    lockLoop m value env (fuel + 1) i =
      ((lockLoop m value env fuel (i + 1)).1,
       (lockLoop m value env fuel (i + 1)).2.1,
       sleepEvs m i ++ [Ev.acquireDispatch, Ev.releaseDispatch]
         ++ (lockLoop m value env fuel (i + 1)).2.2) := by
  simp only [lockLoop]
  rw [if_neg hne, if_neg hfail]

theorem lockLoop_ne_ok_frame {E : Type} [DecidableEq E] (m : Mutex E)
    (value : String) (env : Nat → Attempt E) :
    ∀ fuel i, (lockLoop m value env fuel i).1 ≠ .ok →
      (lockLoop m value env fuel i).2.1 = m := by
  intro fuel
  induction fuel with
  | zero => intro i _; rfl
  | succ fuel ih =>
    intro i hne
    by_cases h1 : (acquireDisp (env i)).1 = 0 ∧ (acquireDisp (env i)).2 ≠ none
    · rw [lockLoop_succ_aggErr m value env fuel i h1]
    · by_cases h2 : m.quorum ≤ (acquireDisp (env i)).1
          ∧ 0 < attemptValidity m (env i)
      · exfalso
        apply hne
        rw [lockLoop_succ_ok m value env fuel i h1 h2.1 h2.2]
      · rw [lockLoop_succ_next m value env fuel i h1 h2] at hne ⊢
        exact ih (i + 1) hne

theorem lockLoop_ok_inv {E : Type} [DecidableEq E] (m : Mutex E)
    (value : String) (env : Nat → Attempt E) :
    ∀ fuel i, (lockLoop m value env fuel i).1 = .ok →
      ∃ j, i ≤ j ∧ m.quorum ≤ (acquireDisp (env j)).1
        ∧ 0 < attemptValidity m (env j)
        ∧ (lockLoop m value env fuel i).2.1 =
            { m with value := value,
                     untilTime := (env j).finish + attemptValidity m (env j) } := by
  intro fuel
  induction fuel with
  | zero =>
    intro i h
    rw [lockLoop_zero] at h
    exact absurd h (by simp)
  | succ fuel ih =>
    intro i h
    by_cases h1 : (acquireDisp (env i)).1 = 0 ∧ (acquireDisp (env i)).2 ≠ none
    · rw [lockLoop_succ_aggErr m value env fuel i h1] at h
      exact absurd h (by simp)
    · by_cases h2 : m.quorum ≤ (acquireDisp (env i)).1
          ∧ 0 < attemptValidity m (env i)
      · refine ⟨i, le_refl i, h2.1, h2.2, ?_⟩
        rw [lockLoop_succ_ok m value env fuel i h1 h2.1 h2.2]
      · rw [lockLoop_succ_next m value env fuel i h1 h2] at h ⊢
        obtain ⟨j, hij, hq, hv, hst⟩ := ih (i + 1) h
        exact ⟨j, le_trans (Nat.le_succ i) hij, hq, hv, hst⟩

theorem lockLoop_aggErr_inv {E : Type} [DecidableEq E] (m : Mutex E)
    (value : String) (env : Nat → Attempt E) :
    ∀ fuel i es, (lockLoop m value env fuel i).1 = .aggErr es →
      ∃ j, i ≤ j ∧ (acquireDisp (env j)).1 = 0
        ∧ (acquireDisp (env j)).2 = some es := by
  intro fuel
  induction fuel with
  | zero =>
    intro i es h
    rw [lockLoop_zero] at h
    exact absurd h (by simp)
  | succ fuel ih =>
    intro i es h
    by_cases h1 : (acquireDisp (env i)).1 = 0 ∧ (acquireDisp (env i)).2 ≠ none
    · rw [lockLoop_succ_aggErr m value env fuel i h1] at h
      obtain ⟨l, hl⟩ := Option.ne_none_iff_exists'.mp h1.2
      refine ⟨i, le_refl i, h1.1, ?_⟩
      rw [hl]
      simp only [hl, Option.getD_some] at h
      cases h
      rfl
    · by_cases h2 : m.quorum ≤ (acquireDisp (env i)).1
          ∧ 0 < attemptValidity m (env i)
      · rw [lockLoop_succ_ok m value env fuel i h1 h2.1 h2.2] at h
        exact absurd h (by simp)
      · rw [lockLoop_succ_next m value env fuel i h1 h2] at h
        obtain ⟨j, hij, hz, he⟩ := ih (i + 1) es h
        exact ⟨j, le_trans (Nat.le_succ i) hij, hz, he⟩

theorem lockLoop_fail_all {E : Type} [DecidableEq E] (m : Mutex E)
    (value : String) (env : Nat → Attempt E)
    (hnz : ∀ j, ¬((acquireDisp (env j)).1 = 0 ∧ (acquireDisp (env j)).2 ≠ none))
    (hns : ∀ j, ¬(m.quorum ≤ (acquireDisp (env j)).1
        ∧ 0 < attemptValidity m (env j))) :
    ∀ fuel i, (lockLoop m value env fuel i).1 = .errFailed
      ∧ (lockLoop m value env fuel i).2.1 = m := by
  intro fuel
  induction fuel with
  | zero => intro i; exact ⟨rfl, rfl⟩
  | succ fuel ih =>
    intro i
    rw [lockLoop_succ_next m value env fuel i (hnz i) (hns i)]
    exact ih (i + 1)

/-- A per-attempt environment in which the single pool accepts the `SetNX`
(`true` reply), with the dispatch taking 10 ns. -/
def attemptEnvOk : Nat → Attempt Nat := fun _ => ⟨0, [Except.ok true], 10⟩

/-- A per-attempt environment in which the single pool cleanly rejects the
`SetNX` (`false` reply, no error). -/
def attemptEnvClean : Nat → Attempt Nat := fun _ => ⟨0, [Except.ok false], 10⟩

/-- C2: an iteration of the `Lock` loop whose early total-failure exit does
not fire succeeds — writing `value` and `until` and returning ok — iff the
success count reaches quorum and the computed validity is strictly positive;
otherwise (including quorum reached with zero or negative validity) a release
dispatch to every pool follows and the loop continues with the next
iteration. -/
theorem lock_attempt_spec {E : Type} [DecidableEq E] (m : Mutex E)
    (value : String) (env : Nat → Attempt E) (fuel i : Nat)
    (hne : ¬((acquireDisp (env i)).1 = 0 ∧ (acquireDisp (env i)).2 ≠ none)) :
    (m.quorum ≤ (acquireDisp (env i)).1 → 0 < attemptValidity m (env i) →
      lockLoop m value env (fuel + 1) i =
        (.ok,
         { m with value := value,
                  untilTime := (env i).finish + attemptValidity m (env i) },
         sleepEvs m i ++ [Ev.acquireDispatch]))
    ∧ (¬(m.quorum ≤ (acquireDisp (env i)).1
          ∧ 0 < attemptValidity m (env i)) →
      lockLoop m value env (fuel + 1) i =
        ((lockLoop m value env fuel (i + 1)).1,
         (lockLoop m value env fuel (i + 1)).2.1,
         sleepEvs m i ++ [Ev.acquireDispatch, Ev.releaseDispatch]
           ++ (lockLoop m value env fuel (i + 1)).2.2)) :=
  ⟨fun hq hv => lockLoop_succ_ok m value env fuel i hne hq hv,
   fun hfail => lockLoop_succ_next m value env fuel i hne hfail⟩

theorem lock_attempt_spec_witness :
    lockLoop (sampleMutex 1 1) "v" attemptEnvOk 1 0 =
      (LockResult.ok,
       { sampleMutex 1 1 with value := "v", untilTime := 7920000000 },
       [Ev.acquireDispatch]) := by
  have h := (lock_attempt_spec (sampleMutex 1 1) "v" attemptEnvOk 0 0
    (by decide)).1 (by decide) (by decide)
  exact h

/-- C3: `Lock`'s error behaviour: a value-source failure is returned before
any instance is contacted (empty trace); within the loop a dispatch with zero
successes and a non-nil aggregated error returns that aggregated error
immediately, and an aggregated error is returned only from such a dispatch;
in every other failing run the loop exhausts its iterations and `Lock`
returns `ErrFailed`, carrying no per-attempt error. -/
theorem lock_error_spec {E : Type} [DecidableEq E] (m : Mutex E)
    (env : Nat → Attempt E) :
    (∀ e, m.genValueFunc = Except.error e →
      lockGo m env = (.genErr e, m, []))
    ∧ (∀ value fuel i es, (acquireDisp (env i)).1 = 0 →
        (acquireDisp (env i)).2 = some es →
        lockLoop m value env (fuel + 1) i =
          (.aggErr es, m, sleepEvs m i ++ [Ev.acquireDispatch]))
    ∧ (∀ value fuel i es, (lockLoop m value env fuel i).1 = .aggErr es →
        ∃ j, i ≤ j ∧ (acquireDisp (env j)).1 = 0
          ∧ (acquireDisp (env j)).2 = some es)
    ∧ (∀ v, m.genValueFunc = Except.ok v →
        (∀ j, ¬((acquireDisp (env j)).1 = 0
            ∧ (acquireDisp (env j)).2 ≠ none)) →
        (∀ j, ¬(m.quorum ≤ (acquireDisp (env j)).1
            ∧ 0 < attemptValidity m (env j))) →
        (lockGo m env).1 = .errFailed ∧ (lockGo m env).2.1 = m) := by
  refine ⟨?_, ?_, ?_, ?_⟩
  · intro e he
    simp only [lockGo, he]
  · intro value fuel i es hz he
    have h := lockLoop_succ_aggErr m value env fuel i
      ⟨hz, by rw [he]; exact Option.some_ne_none es⟩
    rw [he] at h
    simpa using h
  · intro value fuel i es h
    exact lockLoop_aggErr_inv m value env fuel i es h
  · intro v hv hnz hns
    simp only [lockGo, hv]
    exact lockLoop_fail_all m v env hnz hns m.tries.toNat 0

theorem lock_error_spec_witness :
    lockGo ({ sampleMutex 1 1 with
        genValueFunc := Except.error (RedisErr.transport 7) }) attemptEnvClean
      = (LockResult.genErr (RedisErr.transport 7),
         { sampleMutex 1 1 with
             genValueFunc := Except.error (RedisErr.transport 7) }, [])
    ∧ (lockGo (sampleMutex 1 2) attemptEnvClean).1 = LockResult.errFailed := by
  constructor
  · exact (lock_error_spec
      ({ sampleMutex 1 1 with
          genValueFunc := Except.error (RedisErr.transport 7) })
      attemptEnvClean).1 (RedisErr.transport 7) rfl
  · exact ((lock_error_spec (sampleMutex 1 2) attemptEnvClean).2.2.2 "tok" rfl
      (fun j => by simp only [attemptEnvClean]; decide)
      (fun j => by simp only [attemptEnvClean]; decide)).1

/-- C8: on every loop run that returns ok under a monotone clock
(each attempt's finish sample at or after its start sample), the stored
deadline of the succeeding attempt `j` satisfies
`until - finish_j ≤ expiry - drift` and `0 < until - finish_j`, and the token
is stored. -/
theorem lock_validity_bound {E : Type} [DecidableEq E] (m : Mutex E)
    (value : String) (env : Nat → Attempt E) (fuel i : Nat) (m' : Mutex E)
    (evs : List Ev)
    (hmono : ∀ j, (env j).start ≤ (env j).finish)
    (hok : lockLoop m value env fuel i = (.ok, m', evs)) :
    ∃ j, i ≤ j ∧
      m'.untilTime - (env j).finish ≤ m.expiry - m.drift
      ∧ 0 < m'.untilTime - (env j).finish
      ∧ m'.value = value := by
  have h1 : (lockLoop m value env fuel i).1 = .ok := by rw [hok]
  obtain ⟨j, hij, hq, hv, hst⟩ := lockLoop_ok_inv m value env fuel i h1
  rw [hok] at hst
  have hm2 : m' = { m with value := value,
                           untilTime := (env j).finish + attemptValidity m (env j) } := hst
  refine ⟨j, hij, ?_, ?_, ?_⟩
  · rw [hm2]
    show (env j).finish + attemptValidity m (env j) - (env j).finish
      ≤ m.expiry - m.drift
    have hm := hmono j
    simp only [attemptValidity]
    omega
  · rw [hm2]
    show 0 < (env j).finish + attemptValidity m (env j) - (env j).finish
    omega
  · rw [hm2]

/-- The post-state of the concrete successful run used by the witnesses. -/
def lockedSample : Mutex Nat :=
  { sampleMutex 1 1 with value := "v", untilTime := 7920000000 }

theorem lock_validity_bound_witness :
    ∃ j, 0 ≤ j ∧
      lockedSample.untilTime - (attemptEnvOk j).finish
        ≤ (sampleMutex 1 1).expiry - (sampleMutex 1 1).drift
      ∧ 0 < lockedSample.untilTime - (attemptEnvOk j).finish
      ∧ lockedSample.value = "v" :=
  lock_validity_bound (sampleMutex 1 1) "v" attemptEnvOk 1 0
    lockedSample [Ev.acquireDispatch]
    (fun j => by simp only [attemptEnvOk]; decide) rfl

/-- C9: `value` and `until` are written only by the success branch of `Lock`:
`Unlock`, `Extend` and `Valid` return the receiver unchanged on every path
(in particular `Unlock` never clears `value`), a `Lock` that does not return
ok leaves the receiver unchanged, and a `Lock` that returns ok stores the
generated token and a deadline. -/
theorem frame_spec {E : Type} [DecidableEq E] (m : Mutex E)
    (scripts : List (Except (RedisErr E) Int)) (gets : List (GetResult E))
    (env : Nat → Attempt E) :
    (Unlock m scripts).2 = m
    ∧ (Extend m scripts).2 = m
    ∧ (Valid m gets).2 = m
    ∧ ((lockGo m env).1 ≠ .ok → (lockGo m env).2.1 = m)
    ∧ ((lockGo m env).1 = .ok →
        ∃ v u, m.genValueFunc = Except.ok v
          ∧ (lockGo m env).2.1 = { m with value := v, untilTime := u }) := by
  refine ⟨rfl, rfl, rfl, ?_, ?_⟩
  · intro h
    cases hg : m.genValueFunc with
    | error e => simp only [lockGo, hg]
    | ok v =>
      simp only [lockGo, hg] at h ⊢
      exact lockLoop_ne_ok_frame m v env m.tries.toNat 0 h
  · intro h
    cases hg : m.genValueFunc with
    | error e =>
      rw [show lockGo m env = (.genErr e, m, []) by simp only [lockGo, hg]] at h
      exact absurd h (by simp)
    | ok v =>
      simp only [lockGo, hg] at h ⊢
      obtain ⟨j, _, _, _, hst⟩ := lockLoop_ok_inv m v env m.tries.toNat 0 h
      have hst2 := hst
      rw [hg] at hst2
      exact ⟨v, (env j).finish + attemptValidity m (env j), rfl, hst2⟩

theorem frame_spec_witness :
    (Unlock (sampleMutex 1 1)
      ([Except.ok 1] : List (Except (RedisErr Nat) Int))).2 = sampleMutex 1 1
    ∧ (lockGo (sampleMutex 1 1) attemptEnvClean).2.1 = sampleMutex 1 1 := by
  refine ⟨(frame_spec (sampleMutex 1 1) [Except.ok 1] [] attemptEnvClean).1, ?_⟩
  exact (frame_spec (sampleMutex 1 1) [Except.ok 1] []
    attemptEnvClean).2.2.2.1 (by decide)

/-- C10: a mutex whose `tries` is zero or negative and whose value source
succeeds returns `ErrFailed` from `Lock` with no dispatch, no sleep, and the
receiver unchanged: the attempt loop body never executes. -/
theorem lock_nonpositive_tries {E : Type} [DecidableEq E] (m : Mutex E)
    (env : Nat → Attempt E) (v : String)
    (hv : m.genValueFunc = Except.ok v) (ht : m.tries ≤ 0) :
    lockGo m env = (LockResult.errFailed, m, []) := by
  simp only [lockGo, hv]
  rw [Int.toNat_of_nonpos ht]
  exact lockLoop_zero m v env 0

theorem lock_nonpositive_tries_witness :
    lockGo (sampleMutex 1 (-3)) attemptEnvClean
      = (LockResult.errFailed, sampleMutex 1 (-3), []) :=
  lock_nonpositive_tries (sampleMutex 1 (-3)) attemptEnvClean "tok" rfl
    (by decide)

end Redsync
